import Mathlib

/-!
Verification development for the Live2D timeline backend (server.mjs).

Shallow embedding notes:
* JavaScript numbers are modelled as `ℚ`, except that NaN (which arises in the
  source from coercing non-numeric values, e.g. `Math.max(0, {} - 0)`) is
  modelled explicitly: an `Option ℚ` with `none` = NaN, and the `JVal.nan`
  constructor for a NaN stored in a field.  Floating-point rounding is
  idealised away (exact rationals); NaN propagation and truthiness follow the
  JavaScript rules exactly.
* JavaScript objects used as parameter maps are modelled as association lists
  `List (String × JVal)`; real JS objects have unique keys and
  `Object.entries`/per-entry rebuilding preserves order, which the list model
  reproduces.
* `Math.sin` and `Math.PI` are abstracted into a `SinOracle` parameter: every
  theorem quantifies over the oscillator, since no claim depends on actual
  sine values.
* The generative collaborator (OpenAI call) is an external service; its
  outcome is a parameter of the handler: either the awaited promise rejects
  (`LLMResult.throws`, which also covers the missing-API-key throw) or it
  yields text whose `JSON.parse` result is `Option JCand`
  (`none` = empty output or invalid JSON, both of which leave `outJSON` null;
  `JCand` distinguishes candidates representable as a `JTimeline` from the
  one JSON shape on which the source's `clampTimeline` throws: a keyframes
  array containing `null`).
* The raw `parameterCatalog` request value is a `JCatalog`: a string, or a
  non-string with its truthiness — `(txt || '').split` at source line 299
  (outside the try/catch) throws on a truthy non-string.
-/

namespace Live2d

/-- A JavaScript value sitting at a numeric-ish field or parameter key.
`num q` is a (non-NaN) number, `nan` is the number NaN
(`typeof NaN === 'number'`), and `other truthy toNum` is any non-number
value together with its JS truthiness and its `ToNumber` coercion
(`none` meaning the coercion is NaN).  An absent key (`undefined`) is
`other false none`. -/
inductive JVal where
  | num (q : ℚ)
  | nan
  | other (truthy : Bool) (toNum : Option ℚ)
deriving DecidableEq

/-- JS truthiness of a `JVal` (`0` and `NaN` are falsy). -/
def JVal.jsTruthy : JVal → Bool
  | .num q => decide (q ≠ 0)
  | .nan => false
  | .other t _ => t

/-- `ToNumber` coercion of a `JVal`; `none` is NaN. -/
def JVal.toNumber : JVal → Option ℚ
  | .num q => some q
  | .nan => none
  | .other _ n => n

/-- `v || d` followed by numeric coercion, as in `kf.timeMs || 0` and
`timeline.fixedFps.dtMs || 1000/60` from the source: a falsy value is
replaced by the (numeric) default, a truthy one is coerced. -/
def jOrNum (v : JVal) (d : ℚ) : Option ℚ :=
  if v.jsTruthy then v.toNumber else some d

/-- NaN-propagating `Math.max`. -/
def jsMax (a b : Option ℚ) : Option ℚ :=
  match a, b with
  | some x, some y => some (max x y)
  | _, _ => none

/-- Repack an NaN-aware number into a stored `JVal`. -/
def jvalN (x : Option ℚ) : JVal :=
  match x with
  | some q => .num q
  | none => .nan

/-- Structured parameter definition, as produced by `parseCatalog`
(source lines 27–34). -/
structure ParamDef where
  id : String
  min : ℚ
  max : ℚ
  default : ℚ
  isToggleLike : Bool
  note : String
deriving DecidableEq

/-- A JS parameter map (`{"<ParamId>": <value>, ...}`) as an entry list. -/
abbrev PMap := List (String × JVal)

/-- One NON-NULLISH keyframe object as found in a candidate timeline:
`timeMs` may be any JS value (absent = `other false none`), and the two
possible parameter-map keys `params` and `set` are present (`some`) or
absent/falsy (`none`).  A `null` element of a candidate keyframes array —
on which the source's `clampTimeline` throws a TypeError at `kf.timeMs`
(line 55) — is NOT a `JKeyframe`; at the handler level it is modelled by
`JCand.keyedWithNullish` below, so `clampTimeline` here is total exactly
on the values the source's `clampTimeline` does not throw on. -/
structure JKeyframe where
  timeMs : JVal
  params : Option PMap
  set : Option PMap
deriving DecidableEq

/-- The `fixedFps` container: `dtMs` is any JS value, `frames` is either an
array of parameter maps or absent. -/
structure JFixedFps where
  dtMs : JVal
  frames : Option (List PMap)
deriving DecidableEq

/-- A JS timeline object.  `keyframes none` is `mode === 'keyframes'` with the
`keyframes` key absent (the source then uses `timeline.keyframes || []`);
`fixed_fps none` is `mode === 'fixed_fps'` with `fixedFps` absent/falsy;
`otherShape` is every other JSON value (wrong/absent `mode`, non-object, …),
which `clampTimeline` returns unchanged and the orchestrator's shape check
rejects. -/
inductive JTimeline where
  | keyframes (kfs : Option (List JKeyframe))
  | fixed_fps (fixedFps : Option JFixedFps)
  | otherShape
deriving DecidableEq

/-- `new Map(defs.map(d => [d.id, d])).get(k)` — later duplicate ids
overwrite earlier ones (source line 41). -/
def byId (defs : List ParamDef) (k : String) : Option ParamDef :=
  defs.foldl (fun acc d => if d.id = k then some d else acc) none

/-- `clamp(v, a, b) = Math.max(a, Math.min(b, v))` (source line 38). -/
def clamp (v a b : ℚ) : ℚ := max a (min b v)

/-- The per-value work of `clampMap`: clamp into the definition's range and,
for toggle-like definitions, `Math.round` (source lines 47–48).
`round` on `ℚ` is `⌊x + 1/2⌋`, exactly JS `Math.round` on non-NaN input. -/
def clampOne (d : ParamDef) (q : ℚ) : ℚ :=
  if d.isToggleLike then ((round (clamp q d.min d.max) : ℤ) : ℚ) else clamp q d.min d.max

/-- `clampMap` (source lines 42–52): keep an entry only when its id is in the
definition map and its value is of number type (`typeof v === 'number'`, which
NaN satisfies: clamping and rounding NaN yields NaN); everything else is
dropped.  Real JS objects have unique keys, so the per-entry `filterMap` is
exactly the source's rebuild loop. -/
def clampMap (defs : List ParamDef) (m : PMap) : PMap :=
  m.filterMap fun kv =>
    match byId defs kv.1, kv.2 with
    | some d, .num q => some (kv.1, JVal.num (clampOne d q))
    | some _, .nan => some (kv.1, JVal.nan)
    | _, _ => none

/-- The body of `clampTimeline` on a non-null timeline (source lines 41–63).
Keyframes get `timeMs: Math.max(0, Math.round(kf.timeMs || 0))` and
`params: clampMap(kf.params || kf.set || {})` (an empty object is truthy, so
a present-but-empty `params` is used, never `set`); the `fixed_fps` branch
runs only when `timeline.fixedFps?.frames` is truthy and sets
`dtMs = Math.max(8, Math.round(dtMs || 1000/60))`. -/
def clampCore (timeline : JTimeline) (defs : List ParamDef) : JTimeline :=
  match timeline with
  | .keyframes kfs =>
      .keyframes (some ((kfs.getD []).map fun kf =>
        { timeMs := jvalN ((jOrNum kf.timeMs 0).map fun q => ((max 0 (round q) : ℤ) : ℚ))
          params := some (clampMap defs ((kf.params).getD ((kf.set).getD [])))
          set := none }))
  | .fixed_fps fx =>
      match fx with
      | some f =>
          match f.frames with
          | some frames =>
              .fixed_fps (some
                { dtMs := jvalN ((jOrNum f.dtMs (1000 / 60)).map fun q => ((max 8 (round q) : ℤ) : ℚ))
                  frames := some (frames.map (clampMap defs)) })
          | none => .fixed_fps (some f)
      | none => .fixed_fps none
  | .otherShape => .otherShape

/-- `clampTimeline` (source lines 39–64); `none` models a falsy timeline,
returned unchanged by the `if (!timeline)` guard. -/
def clampTimeline (timeline : Option JTimeline) (defs : List ParamDef) : Option JTimeline :=
  timeline.map (clampCore · defs)

/-- Call-level model of `clampTimeline`: the source mutates the caller's
object in place (`timeline.keyframes = …` line 54, `timeline.fixedFps.dtMs = …`
line 60, `timeline.fixedFps.frames = …` line 61) and ends with
`return timeline`, so after the call the caller's timeline object and the
returned object are one and the same, holding the clamped data.  The pair is
(returned value, state of the caller's object after the call). -/
def clampTimelineCall (timeline : Option JTimeline) (defs : List ParamDef) :
    Option JTimeline × Option JTimeline :=
  (clampTimeline timeline defs, clampTimeline timeline defs)

/-! ### The catalog parser

`parseCatalog` (source lines 18–37) runs, on every line, the regex

`-\s*([A-Za-z0-9_]+)\s*—\s*\[(-?\d+(?:\.\d+)?),\s*(-?\d+(?:\.\d+)?)\](?:\s*\(default\s*([-\d.]+).*?\))?(?:\s*—\s*(.*))?$`

via `String.prototype.match`, which tries successive start positions and,
because of the trailing `$` (and the final `(.*)` running to the end of the
line), accepts exactly when the pattern matches from some position to the end
of the line.  The matcher below follows the regex literally; the only
approximation is that the lazy `.*?\)` inside the default group takes the
first `)` without retrying later ones (retrying only matters for lines where
the continuation after the first `)` fails but succeeds after a later one —
no such line appears in any concrete input used here). -/

/-- `[A-Za-z0-9_]` (ASCII alphanumerics and underscore). -/
def isIdChar (c : Char) : Bool := c.isAlphanum || c = '_'

/-- `\s` restricted to intra-line whitespace. -/
def isWsChar (c : Char) : Bool := c = ' ' || c = '\t'

/-- `\s*`. -/
def skipWs : List Char → List Char
  | [] => []
  | c :: cs => if isWsChar c then skipWs cs else c :: cs

/-- Consume one expected character. -/
def expectChar (c : Char) : List Char → Option (List Char)
  | [] => none
  | d :: cs => if d = c then some cs else none

/-- Consume an expected literal string. -/
def expectStr : List Char → List Char → Option (List Char)
  | [], cs => some cs
  | _ :: _, [] => none
  | p :: ps, c :: cs => if c = p then expectStr ps cs else none

/-- Numeric value of a digit run. -/
def digitsVal (ds : List Char) : ℕ :=
  ds.foldl (fun n c => 10 * n + (c.toNat - 48)) 0

/-- `-?\d+(?:\.\d+)?` — a signed decimal with mandatory integer part and an
optional fractional group needing at least one digit. -/
def parseNum (cs : List Char) : Option (ℚ × List Char) :=
  let signed : Bool × List Char :=
    match cs with
    | '-' :: t => (true, t)
    | _ => (false, cs)
  let ds := signed.2.takeWhile Char.isDigit
  if ds.isEmpty then none
  else
    let rest := signed.2.dropWhile Char.isDigit
    let vr : ℚ × List Char :=
      match rest with
      | '.' :: t =>
          let fs := t.takeWhile Char.isDigit
          if fs.isEmpty then ((digitsVal ds : ℚ), rest)
          else ((digitsVal ds : ℚ) + (digitsVal fs : ℚ) / (10 ^ fs.length : ℚ),
                t.dropWhile Char.isDigit)
      | _ => ((digitsVal ds : ℚ), rest)
    some ((if signed.1 then -vr.1 else vr.1), vr.2)

/-- JS `Number(s)` for a string drawn from `[-\d.]+` (`none` = NaN):
an optional minus sign, then `digits`, `digits.digits`, `digits.` or
`.digits`, with nothing left over. -/
def jsNumberNonneg (cs : List Char) : Option ℚ :=
  let ds := cs.takeWhile Char.isDigit
  let rest := cs.dropWhile Char.isDigit
  match rest with
  | [] => if ds.isEmpty then none else some (digitsVal ds : ℚ)
  | '.' :: t =>
      let fs := t.takeWhile Char.isDigit
      let rest2 := t.dropWhile Char.isDigit
      if rest2.isEmpty = false then none
      else if ds.isEmpty && fs.isEmpty then none
      else some ((digitsVal ds : ℚ) + (digitsVal fs : ℚ) / (10 ^ fs.length : ℚ))
  | _ => none

/-- JS `Number` on the captured default text. -/
def jsNumber (cs : List Char) : Option ℚ :=
  match cs with
  | '-' :: t => (jsNumberNonneg t).map Neg.neg
  | _ => jsNumberNonneg cs

/-- Scan to the first `)` (the lazy `.*?\)`), returning what follows. -/
def dropToCloseParen : List Char → Option (List Char)
  | [] => none
  | c :: cs => if c = ')' then some cs else dropToCloseParen cs

/-- The optional default group `\s*\(default\s*([-\d.]+).*?\)`. -/
def attemptDefault (cs : List Char) : Option (String × List Char) := do
  let cs1 ← expectChar '(' (skipWs cs)
  let cs2 ← expectStr "default".toList cs1
  let cs3 := skipWs cs2
  let ds := cs3.takeWhile fun c => c.isDigit || c = '-' || c = '.'
  if ds.isEmpty then none
  else
    let cs4 ← dropToCloseParen (cs3.dropWhile fun c => c.isDigit || c = '-' || c = '.')
    some (String.mk ds, cs4)

/-- The optional trailing note `\s*—\s*(.*)`. -/
def attemptNote (cs : List Char) : Option String := do
  let cs1 ← expectChar '—' (skipWs cs)
  some (String.mk (skipWs cs1))

/-- Finish a match after `]`: the two optional groups followed by `$`,
with the regex backtracking that skips a matched default group whenever the
continuation after it fails. -/
def matchTail (cs : List Char) : Option (Option String × Option String) :=
  let noDefault : Option (Option String × Option String) :=
    match attemptNote cs with
    | some d => some (none, some d)
    | none => if cs.isEmpty then some (none, none) else none
  match attemptDefault cs with
  | some (dflt, rest) =>
      (match attemptNote rest with
       | some d => some (some dflt, some d)
       | none => if rest.isEmpty then some (some dflt, none) else noDefault)
  | none => noDefault

/-- lowercase a string (ASCII, enough for the `/i` flag here). -/
def toLowerStr (s : String) : String := String.mk (s.toList.map Char.toLower)

/-- Substring containment. -/
def containsSub (hay pat : List Char) : Bool :=
  match hay with
  | [] => pat.isEmpty
  | _ :: t => pat.isPrefixOf hay || containsSub t pat

/-- `/piecewise|toggle|categor/i.test(note)` on the lowercased note. -/
def isToggleNote (noteLower : String) : Bool :=
  containsSub noteLower.toList "piecewise".toList ||
  containsSub noteLower.toList "toggle".toList ||
  containsSub noteLower.toList "categor".toList

/-- Build the item pushed by `parseCatalog` (source lines 25–34). -/
def mkParamDef (id : String) (mn mx : ℚ) (dflt : Option String) (desc : Option String) :
    ParamDef :=
  { id := id
    min := mn
    max := mx
    default := match dflt with
      | some s => (jsNumber s.toList).getD 0
      | none => 0
    isToggleLike := isToggleNote (toLowerStr (desc.getD ""))
    note := desc.getD "" }

/-- One match attempt anchored at the current position. -/
def matchAt (cs : List Char) : Option ParamDef := do
  let cs1 ← expectChar '-' cs
  let cs2 := skipWs cs1
  let idCs := cs2.takeWhile isIdChar
  if idCs.isEmpty then none
  else
    let cs3 ← expectChar '—' (skipWs (cs2.dropWhile isIdChar))
    let cs4 ← expectChar '[' (skipWs cs3)
    let mnr ← parseNum cs4
    let cs5 ← expectChar ',' mnr.2
    let mxr ← parseNum (skipWs cs5)
    let cs6 ← expectChar ']' mxr.2
    let tail ← matchTail cs6
    some (mkParamDef (String.mk idCs) mnr.1 mxr.1 tail.1 tail.2)

/-- `ln.match(re)`: try successive start positions left to right. -/
def scanLine : List Char → Option ParamDef
  | [] => matchAt []
  | c :: t =>
      match matchAt (c :: t) with
      | some d => some d
      | none => scanLine t

/-- Split on `/\r?\n/`. -/
def splitRN : List Char → List (List Char)
  | [] => [[]]
  | '\r' :: '\n' :: cs => [] :: splitRN cs
  | '\n' :: cs => [] :: splitRN cs
  | c :: cs =>
      match splitRN cs with
      | l :: ls => (c :: l) :: ls
      | [] => [[c]]

/-- `parseCatalog` (source lines 18–37): split into lines, keep the lines the
regex matches. -/
def parseCatalog (txt : String) : List ParamDef :=
  (splitRN txt.toList).filterMap scanLine

/-! ### The heuristic fallback synthesizer (source lines 65–93) -/

/-- `Math.sin` and `Math.PI`, abstracted: the fallback's breathing value
`0.5 + 0.1*Math.sin((t/1000)*2*Math.PI*0.33)` is transcendental, and no claim
depends on its numeric value, so theorems quantify over the oracle. -/
structure SinOracle where
  sin : ℚ → ℚ
  pi : ℚ

/-- A well-formed element of the `words` array: the three fields the core
reads.  An absent field is `JVal.other false none` (`undefined`); `text` is
`some s` for a string (on any non-string value, `/[.!?]/.test` coerces with
`String(...)`, and the values so produced — "undefined", "[object Object]",
… — contain no sentence punctuation, which `none` models). -/
structure WordRec where
  startMs : JVal
  endMs : JVal
  text : Option String
deriving DecidableEq

/-- An element of `words`: either a property-readable value or `null` /
`undefined`, on which `w.endMs` throws a TypeError.  (Numbers, booleans and
strings as elements box and read all fields as `undefined`, i.e. behave as a
`rec` of absent fields.) -/
inductive JWord where
  | obj (w : WordRec)
  | nullish
deriving DecidableEq

/-- A well-formed element of the `visemes` array. -/
structure VisemeRec where
  startMs : JVal
deriving DecidableEq

/-- An element of `visemes`. -/
inductive JViseme where
  | obj (v : VisemeRec)
  | nullish
deriving DecidableEq

/-- Result of running `simpleFallbackTimeline`: it can throw (a nullish
element under `w.endMs` / `v.startMs` in the reduces), loop forever (the
frame loop `for (t = 0; t <= dur; t += dtMs)` with `dtMs <= 0` and a
non-NaN `dur >= 0` never exits), or return `{mode:'fixed_fps',
fixedFps:{dtMs, frames}}`. -/
inductive FbResult where
  | thrown
  | diverges
  | ok (dtMs : ℤ) (frames : List PMap)
deriving DecidableEq

/-- `/[.!?]/.test(w.text)`: the text CONTAINS one of `. ! ?` (the regex has
no anchor). -/
def testPunct : Option String → Bool
  | some s => s.toList.any fun c => c = '.' || c = '!' || c = '?'
  | none => false

/-- The sparse frame built for time `t` (source lines 74–90): breathing when
`ParamBreath` exists, a blink slot when both eye parameters exist, and the
nod `ParamAngleY = 3.0` when some word has punctuation in its text and a
start time strictly within 200 ms of `t`. -/
def frameAt (o : SinOracle) (words : List WordRec) (defs : List ParamDef) (t : ℚ) : PMap :=
  let has : String → Bool := fun id => defs.any fun d => d.id = id
  (if has "ParamBreath" then
    [("ParamBreath", JVal.num (1/2 + (1/10) * o.sin ((t / 1000) * 2 * o.pi * (33/100))))]
   else []) ++
  (if has "ParamEyeLOpen" && has "ParamEyeROpen" && decide (⌊Int.fract (t / 3500) * 10⌋ = 0) then
    [("ParamEyeLOpen", JVal.num (1/10)), ("ParamEyeROpen", JVal.num (1/10))]
   else []) ++
  (if has "ParamAngleY" &&
      words.any (fun w => testPunct w.text &&
        match jOrNum w.startMs 0 with
        | some q => decide (|q - t| < 200)
        | none => false) then
    [("ParamAngleY", JVal.num 3)]
   else [])

/-- Extract the readable word records (used only after the nullish check). -/
def wordRecs (words : List JWord) : List WordRec :=
  words.filterMap fun w =>
    match w with
    | .obj r => some r
    | .nullish => none

/-- Extract the readable viseme records. -/
def visemeRecs (visemes : List JViseme) : List VisemeRec :=
  visemes.filterMap fun v =>
    match v with
    | .obj r => some r
    | .nullish => none

/-- `simpleFallbackTimeline` (source lines 65–93).
`dtMs = Math.round(1000 / Math.max(1, fps))`;
`dur = Math.max(words.reduce(max endMs, 0), visemes.reduce(max startMs, 0))`
(NaN-propagating, so one non-numeric truthy `endMs`/`startMs` makes `dur`
NaN and the frame loop runs zero times); the loop emits `frameAt` for
`t = 0, dtMs, …` while `t <= dur`, i.e. `⌊dur/dtMs⌋ + 1` frames. -/
def simpleFallbackTimeline (o : SinOracle) (words : List JWord) (visemes : List JViseme)
    (defs : List ParamDef) (fps : ℚ) : FbResult :=
  if words.any (fun w => decide (w = JWord.nullish)) || visemes.any (fun v => decide (v = JViseme.nullish)) then .thrown
  else
    let recs := wordRecs words
    let dtMs : ℤ := round (1000 / max 1 fps)
    let wMax : Option ℚ := recs.foldl (fun m w => jsMax m (jOrNum w.endMs 0)) (some 0)
    let vMax : Option ℚ := (visemeRecs visemes).foldl
      (fun m v => jsMax m (jOrNum v.startMs 0)) (some 0)
    match jsMax wMax vMax with
    | none => .ok dtMs []
    | some dur =>
        if dtMs ≤ 0 then .diverges
        else .ok dtMs ((List.range ((⌊dur / (dtMs : ℚ)⌋).toNat + 1)).map
          fun (i : ℕ) => frameAt o recs defs ((i : ℚ) * (dtMs : ℚ)))

/-! ### The `/live2d_timeline` handler (source lines 293–380) -/

/-- A request field that must be an array: `notArr` is any non-array value
(the destructuring default `[]` makes an absent field an array). -/
inductive JArr (α : Type) where
  | arr (xs : List α)
  | notArr
deriving DecidableEq

/-- `Array.isArray`. -/
def JArr.isArr {α : Type} : JArr α → Bool
  | .arr _ => true
  | .notArr => false

/-- The raw `parameterCatalog` request value: a JSON string, or any
non-string JSON value together with its truthiness.  (An absent field
defaults to the string `''` at the destructuring, source line 294.) -/
inductive JCatalog where
  | str (s : String)
  | nonstr (truthy : Bool)
deriving DecidableEq

/-- `parseCatalog` applied to the raw request value (source line 299,
OUTSIDE the handler's try/catch): `(txt || '').split(/\r?\n/)` replaces a
falsy value (`''`, `0`, `false`, `null`) by `''`, but a truthy non-string
JSON value (a number such as `42`, an object, an array, `true`) has no
`.split` method and the call throws a TypeError — modelled as `none`. -/
def parseCatalogJS : JCatalog → Option (List ParamDef)
  | .str s => some (parseCatalog s)
  | .nonstr true => none
  | .nonstr false => some (parseCatalog "")

/-- A collaborator JSON value as the candidate path sees it.  `tl t` is any
value representable as a `JTimeline`; in particular every element of a
keyframes array is an object (or a primitive, which boxes and reads all
fields as `undefined`).  `keyedWithNullish` is a `mode:'keyframes'` object
whose `keyframes` array contains a `null` element: `Array.isArray` accepts
it, so the shape check at source line 355 passes, but `clampTimeline` then
throws a TypeError at `kf.timeMs` (source line 55) INSIDE the `try`, and
the `catch` (source lines 375–379) takes over with the full `defs`.
(JSON.parse cannot place `undefined` in an array, and no other JSON value
makes `clampTimeline` throw: non-object frames and params go through
`Object.entries(x || {})`, which is total, and a `fixedFps` without a
frames array fails the shape check.) -/
inductive JCand where
  | tl (t : JTimeline)
  | keyedWithNullish
deriving DecidableEq

/-- The generative collaborator's outcome for the one request: the awaited
call throws (network/auth error, or the `OPENAI_API_KEY not set` throw at
source line 335), or it produces output text whose JSON parse is `none`
(empty text, or `JSON.parse` threw inside the inner try) or a JSON value
(`JCand`). -/
inductive LLMResult where
  | throws
  | output (outJSON : Option JCand)
deriving DecidableEq

/-- `isFixed` (source line 354): `mode === 'fixed_fps'`, truthy `fixedFps`,
`Array.isArray(fixedFps.frames)`. -/
def isFixedShape : JTimeline → Bool
  | .fixed_fps (some f) => f.frames.isSome
  | _ => false

/-- `isKeyed` (source line 355): `mode === 'keyframes'`,
`Array.isArray(keyframes)`. -/
def isKeyedShape : JTimeline → Bool
  | .keyframes (some _) => true
  | _ => false

/-- The post-clamp emptiness guards (source lines 365–372). -/
def emptyAfterClamp : JTimeline → Bool
  | .keyframes kfs => (kfs.getD []).isEmpty
  | .fixed_fps (some f) => (f.frames.getD []).isEmpty
  | .fixed_fps none => true
  | .otherShape => false

/-- What the handler sends for one request: a thrown (uncaught) error — the
async handler's promise rejects and no JSON response is produced —, a hung
request (the fallback's infinite loop), the 400 `BAD_INPUT` response, or a
200 timeline response. -/
inductive HResult where
  | thrown
  | diverges
  | badInput
  | timeline (t : JTimeline)
deriving DecidableEq

/-- Run the fallback and clamp it against `defsUsed` (the pattern of source
lines 357–358, 366–367, 370–371 with `trimmed`, and 377–378 with `defs`).
If the fallback throws inside the `try`, the `catch` recomputes it with the
same `words`/`visemes` and throws again, so the thrown outcome is stable. -/
def fallbackClamped (o : SinOracle) (words : List JWord) (visemes : List JViseme)
    (defsUsed : List ParamDef) (fps : ℚ) : HResult :=
  match simpleFallbackTimeline o words visemes defsUsed fps with
  | .thrown => .thrown
  | .diverges => .diverges
  | .ok dt frames =>
      .timeline (clampCore (.fixed_fps (some { dtMs := .num (dt : ℚ), frames := some frames }))
        defsUsed)

/-- `app.post('/live2d_timeline')` (source lines 293–380).
The request's `fps` is taken as a number (its JSON default);
`words`/`visemes`/`parameterCatalog` are the destructured values.  The
glossary (lines 306–308) and the anger hints (lines 311–314) only shape the
prompt sent to the collaborator, whose behaviour is already the free
parameter `llm`, so they do not appear in the control flow below.
The array check (line 295) runs before `parseCatalog` (line 299), which is
outside the try/catch: a truthy non-string `parameterCatalog` makes the
handler throw uncaught with no response.  A shape-valid candidate whose
keyframes array holds a `null` element makes `clampTimeline` throw inside
the `try`, so it lands in the `catch` together with the collaborator-throw
route.  Note the asymmetry between the shape-failure / post-clamp-empty
fallbacks (they use `trimmed = defs.slice(0, 280)`) and the `catch`
fallback (source lines 375–379, which uses the full `defs`). -/
def live2dHandler (o : SinOracle) (words : JArr JWord) (visemes : JArr JViseme)
    (parameterCatalog : JCatalog) (fps : ℚ) (llm : LLMResult) : HResult :=
  match words, visemes with
  | .arr ws, .arr vs =>
      match parseCatalogJS parameterCatalog with
      | none => .thrown
      | some defs =>
        if defs.isEmpty then
          match simpleFallbackTimeline o ws vs [] fps with
          | .thrown => .thrown
          | .diverges => .diverges
          | .ok dt frames =>
              .timeline (.fixed_fps (some { dtMs := .num (dt : ℚ), frames := some frames }))
        else
          let trimmed := defs.take 280
          match llm with
          | .throws => fallbackClamped o ws vs defs fps
          | .output outJSON =>
              match outJSON with
              | some (.tl cand) =>
                  if isFixedShape cand || isKeyedShape cand then
                    let safe := clampCore cand trimmed
                    if emptyAfterClamp safe then fallbackClamped o ws vs trimmed fps
                    else .timeline safe
                  else fallbackClamped o ws vs trimmed fps
              | some .keyedWithNullish => fallbackClamped o ws vs defs fps
              | none => fallbackClamped o ws vs trimmed fps
  | _, _ => .badInput

/-! ### Observations used in the claim statements -/

/-- Number of keyframes / frames carried by a timeline. -/
def timelineCount : JTimeline → ℕ
  | .keyframes kfs => (kfs.getD []).length
  | .fixed_fps (some f) => (f.frames.getD []).length
  | .fixed_fps none => 0
  | .otherShape => 0

/-- All parameter ids mentioned anywhere in a timeline. -/
def timelineParamIds : JTimeline → List String
  | .keyframes kfs => ((kfs.getD []).map fun kf =>
      (kf.params.getD []).map Prod.fst ++ (kf.set.getD []).map Prod.fst).flatten
  | .fixed_fps (some f) => ((f.frames.getD []).map fun m => m.map Prod.fst).flatten
  | .fixed_fps none => []
  | .otherShape => []

/-- Spec-side notion (§4.3, §8): the word's text ENDS in sentence-terminal
punctuation `. ! ?` — the property the claim attributes to the nod trigger,
to be compared with the source's containment test `testPunct`. -/
def endsInSentencePunct (s : String) : Bool :=
  match s.toList.getLast? with
  | some c => c = '.' || c = '!' || c = '?'
  | none => false

/-- A concrete oracle for closed counterexamples/witnesses. -/
def oZero : SinOracle := { sin := fun _ => 0, pi := 0 }

/-- Spec-side invariant on one retained parameter value (§3, §8): its id is
in the definition map, the value is a number within `[min, max]`, and for a
toggle-like definition it is integral (`den = 1`). -/
def valueInv (defs : List ParamDef) (k : String) (v : JVal) : Bool :=
  match byId defs k, v with
  | some d, .num q => decide (d.min ≤ q) && decide (q ≤ d.max) &&
      (!d.isToggleLike || decide (q.den = 1))
  | _, _ => false

/-- Spec-side invariant on a parameter map. -/
def mapInv (defs : List ParamDef) (m : PMap) : Bool :=
  m.all fun kv => valueInv defs kv.1 kv.2

/-- Spec-side post-validation invariant on a timeline (§3): all parameter
values pass `valueInv`, every keyframe `timeMs` is a number `≥ 0`, and a
fixed-rate timeline's `dtMs` is a number `≥ 8`. -/
def timelineInvariant (defs : List ParamDef) : JTimeline → Bool
  | .keyframes kfs => (kfs.getD []).all fun kf =>
      (match kf.timeMs with | .num q => decide (0 ≤ q) | _ => false) &&
      mapInv defs (kf.params.getD [])
  | .fixed_fps (some f) =>
      (match f.dtMs with | .num q => decide (8 ≤ q) | _ => false) &&
      (f.frames.getD []).all (mapInv defs)
  | .fixed_fps none => false
  | .otherShape => false

/-- The `|| default` coercion on this keyframe's `timeMs` yields a number
(true unless `timeMs` is a truthy non-number whose coercion is NaN). -/
def kfNumOk (kf : JKeyframe) : Bool := (jOrNum kf.timeMs 0).isSome

/-- All `timeMs` / `dtMs` fields of the timeline are numeric-or-falsy. -/
def tlNumOk : JTimeline → Bool
  | .keyframes kfs => (kfs.getD []).all kfNumOk
  | .fixed_fps (some f) =>
      match f.frames with
      | some _ => (jOrNum f.dtMs (1000 / 60)).isSome
      | none => true
  | .fixed_fps none => true
  | .otherShape => true

/-- No parameter value in this map is the number NaN (every JSON-parsed map
satisfies this: JSON cannot encode NaN). -/
def pmClean (m : PMap) : Bool := m.all fun kv => decide (kv.2 ≠ JVal.nan)

/-- No parameter value anywhere in the timeline is NaN. -/
def tlNanFree : JTimeline → Bool
  | .keyframes kfs => (kfs.getD []).all fun kf =>
      pmClean ((kf.params).getD ((kf.set).getD []))
  | .fixed_fps (some f) => (f.frames.getD []).all pmClean
  | .fixed_fps none => true
  | .otherShape => true

/-- A words element whose `endMs || 0` coerces to a number (no NaN). -/
def wordNumOk : JWord → Prop
  | .obj w => (jOrNum w.endMs 0).isSome = true
  | .nullish => True

/-- A visemes element whose `startMs || 0` coerces to a number (no NaN). -/
def visNumOk : JViseme → Prop
  | .obj v => (jOrNum v.startMs 0).isSome = true
  | .nullish => True

/-! ### Helper lemmas -/

theorem fbResult_ok_of_ne (r : FbResult) (h1 : r ≠ .thrown) (h2 : r ≠ .diverges) :
    ∃ dt frames, r = .ok dt frames := by
  cases r with
  | thrown => exact absurd rfl h1
  | diverges => exact absurd rfl h2
  | ok dt frames => exact ⟨dt, frames, rfl⟩

theorem foldl_jsMax_isSome {β : Type} (f : β → Option ℚ) (l : List β)
    (hf : ∀ x ∈ l, (f x).isSome = true) (a : ℚ) :
    (l.foldl (fun m x => jsMax m (f x)) (some a)).isSome = true := by
  induction l generalizing a with
  | nil => rfl
  | cons x t ih =>
      simp only [List.foldl_cons]
      obtain ⟨qx, hqx⟩ := Option.isSome_iff_exists.mp (hf x (List.mem_cons_self _ _))
      rw [hqx]
      show (t.foldl _ (jsMax (some a) (some qx))).isSome = true
      simp only [jsMax]
      exact ih (fun y hy => hf y (List.mem_cons_of_mem _ hy)) _

theorem round_mono_rat {x y : ℚ} (h : x ≤ y) : round x ≤ round y := by
  rw [round_eq, round_eq]
  exact Int.floor_mono (by linarith)

theorem dt_ge_one_of_fps_le (fps : ℚ) (h : fps ≤ 2000) : 1 ≤ round (1000 / max 1 fps) := by
  have h1 : (1 : ℚ) ≤ max 1 fps := le_max_left _ _
  have h2 : max 1 fps ≤ 2000 := max_le (by norm_num) h
  have hpos : (0 : ℚ) < max 1 fps := lt_of_lt_of_le one_pos h1
  have h3 : (1 : ℚ) / 2 ≤ 1000 / max 1 fps := by
    rw [div_le_div_iff₀ (by norm_num) hpos]
    nlinarith
  have h4 : round ((1 : ℚ) / 2) ≤ round (1000 / max 1 fps) := round_mono_rat h3
  have h5 : round ((1 : ℚ) / 2) = 1 := by
    rw [round_eq]
    norm_num
  omega

theorem jOrNum_num_zero (q : ℚ) : jOrNum (.num q) 0 = some q := by
  unfold jOrNum JVal.jsTruthy JVal.toNumber
  by_cases h : q = 0
  · subst h
    simp
  · simp [h]

theorem frameAt_defs_nil (o : SinOracle) (words : List WordRec) (t : ℚ) :
    frameAt o words [] t = [] := rfl

theorem nodCond_iff (w : WordRec) (t : ℚ) :
    ((match jOrNum w.startMs 0 with
      | some q => decide (|q - t| < 200)
      | none => false) = true) ↔ ∃ q, jOrNum w.startMs 0 = some q ∧ |q - t| < 200 := by
  cases h : jOrNum w.startMs 0 <;> simp [h]

theorem nodAny_iff (words : List WordRec) (t : ℚ) :
    (words.any (fun w => testPunct w.text &&
      match jOrNum w.startMs 0 with
      | some q => decide (|q - t| < 200)
      | none => false) = true) ↔
    ∃ w ∈ words, testPunct w.text = true ∧
      ∃ q, jOrNum w.startMs 0 = some q ∧ |q - t| < 200 := by
  rw [List.any_eq_true]
  refine exists_congr fun w => and_congr_right fun _ => ?_
  rw [Bool.and_eq_true, nodCond_iff]

/-! ### Claim C3 -/

unseal Rat.mul Rat.inv Rat.add Rat.sub in
/-- C3 counterexample: the spec scenario timeline
`{mode:"keyframes", keyframes:[{timeMs:-5, params:{ParamX: 999}}]}` with
catalog `ParamX [0,1]`.  After the call, the caller's timeline object is NOT
the unchanged input: `clampTimeline` mutated it in place (its keyframe now
reads `timeMs: 0, params: {ParamX: 1}`), refuting the claim that the input
is unchanged and the result a new, independent object. -/
theorem C3_counterexample :
    (clampTimelineCall
        (some (JTimeline.keyframes (some [⟨JVal.num (-5), some [("ParamX", JVal.num 999)], none⟩])))
        [⟨"ParamX", 0, 1, 0, false, ""⟩]).2
      ≠ some (JTimeline.keyframes (some [⟨JVal.num (-5), some [("ParamX", JVal.num 999)], none⟩])) := by
  decide

/-- C3 (corrected): `clampTimeline` never raises and treats a non-numeric
value at any parameter key as absent, but it is not side-effect-free: it
mutates the input timeline in place and returns that same object, so the
post-call state of the input equals the returned (clamped) timeline rather
than the original input.  Conjunct 1: the caller's object after the call is
exactly the returned value.  Conjunct 2: a key all of whose values are
non-numbers never survives into `clampMap`'s output. -/
theorem C3_theorem (T : Option JTimeline) (defs : List ParamDef) :
    (clampTimelineCall T defs).2 = (clampTimelineCall T defs).1
    ∧ ∀ (m : PMap) (k : String),
        (∀ v, (k, v) ∈ m → ∃ tr n, v = JVal.other tr n) →
        ∀ kv ∈ clampMap defs m, kv.1 ≠ k := by
  refine ⟨rfl, ?_⟩
  intro m k hk kv hkv hEq
  rcases List.mem_filterMap.mp hkv with ⟨⟨k₀, v₀⟩, hmem, hf⟩
  rcases hb : byId defs k₀ with _ | d <;> rw [hb] at hf
  · cases v₀ <;> simp at hf
  · cases v₀ with
    | num q =>
        simp only [Option.some.injEq] at hf
        subst hf
        simp only at hEq
        rcases hk (JVal.num q) (hEq ▸ hmem) with ⟨tr, n, habs⟩
        simp at habs
    | nan =>
        simp only [Option.some.injEq] at hf
        subst hf
        simp only at hEq
        rcases hk JVal.nan (hEq ▸ hmem) with ⟨tr, n, habs⟩
        simp at habs
    | other tr n => simp at hf

/-- C3 witness: a concrete non-null call where the post-state equals the
return value, and a concrete map where the all-non-numeric key `K` is gone
from the clamped output while the numeric key `J` survives. -/
theorem C3_witness :
    ((clampTimelineCall none []).2 = (clampTimelineCall none []).1)
    ∧ (("J", JVal.num 5) : String × JVal).1 ≠ "K" := by
  refine ⟨(C3_theorem none []).1, ?_⟩
  refine (C3_theorem none [⟨"J", 0, 10, 0, false, ""⟩]).2
    [("K", JVal.other true none), ("J", JVal.num 5)] "K" ?_ ("J", JVal.num 5) (by decide)
  intro v hv
  simp at hv
  exact ⟨true, none, hv⟩

/-! ### Claim C5 -/

unseal Rat.mul Rat.inv Rat.add Rat.sub in
/-- C5 counterexample: `fps = 200` gives
`dtMs = Math.round(1000/200) = 5 < 8` — the fallback synthesizer itself does
NOT floor `dtMs` at 8 (only the separate clamp step does). -/
theorem C5_counterexample :
    simpleFallbackTimeline oZero [] [] [] 200 = .ok 5 [[]] ∧ ¬((8 : ℤ) ≤ 5) := by
  exact ⟨by decide, by decide⟩

/-- C5 (corrected): for every fps at most 2000 (so that
`dtMs = round(1000/max(1,fps))` is at least 1 and the frame loop
terminates; for larger fps the loop `for (t=0; t<=dur; t+=dtMs)` never
exits), `synthesize([], [], [], fps)` returns a `FixedRateFrames` timeline
with exactly one duration-0 frame carrying no parameters, and with
`dtMs = round(1000/max(1,fps)) ≥ 1` — not necessarily `≥ 8`. -/
theorem C5_theorem (o : SinOracle) (fps : ℚ) (h : fps ≤ 2000) :
    simpleFallbackTimeline o [] [] [] fps = .ok (round (1000 / max 1 fps)) [[]]
    ∧ 1 ≤ round (1000 / max 1 fps) := by
  have hdt := dt_ge_one_of_fps_le fps h
  refine ⟨?_, hdt⟩
  have hfb : simpleFallbackTimeline o [] [] [] fps
      = if round (1000 / max 1 fps) ≤ 0 then FbResult.diverges
        else FbResult.ok (round (1000 / max 1 fps))
          ((List.range ((⌊(0 : ℚ) / ((round (1000 / max 1 fps) : ℤ) : ℚ)⌋).toNat + 1)).map
            fun (i : ℕ) => frameAt o [] [] ((i : ℚ) * ((round (1000 / max 1 fps) : ℤ) : ℚ))) := by
    unfold simpleFallbackTimeline
    simp [wordRecs, visemeRecs, jsMax]
  rw [hfb, if_neg (by omega), zero_div]
  simp only [Int.floor_zero, Int.toNat_zero, zero_add]
  simp [List.range_succ, frameAt_defs_nil]

/-- C5 witness: the corrected statement at `fps = 60`. -/
theorem C5_witness :
    simpleFallbackTimeline oZero [] [] [] 60 = .ok (round ((1000 : ℚ) / max 1 60)) [[]]
    ∧ 1 ≤ round ((1000 : ℚ) / max 1 60) :=
  C5_theorem oZero 60 (by norm_num)

/-! ### Claim C8 -/

unseal Rat.mul Rat.inv Rat.add Rat.sub in
/-- C8 counterexample: a `fixed_fps` candidate with `dtMs: 0`.  `0` is falsy,
so `dtMs || 1000/60` takes the default and the output `dtMs` is `17`, whereas
the claim's formula `max(8, round(dtMs))` would give `8`. -/
theorem C8_counterexample :
    clampCore (.fixed_fps (some ⟨JVal.num 0, some []⟩)) [] = .fixed_fps (some ⟨JVal.num 17, some []⟩)
    ∧ ((max 8 (round (0 : ℚ)) : ℤ) : ℚ) ≠ 17 := by
  exact ⟨by decide, by decide⟩

/-- C8 (corrected): for a `fixed_fps` timeline whose `dtMs` is a nonzero
number (a `0` — falsy — `dtMs` instead defaults to `1000/60`, yielding `17`,
and a non-numeric `dtMs` yields NaN), the output `dtMs` is the input rounded
to the nearest whole millisecond and floored at 8, which is always `≥ 8`. -/
theorem C8_theorem (dt : ℚ) (frames : List PMap) (defs : List ParamDef) (hdt : dt ≠ 0) :
    clampCore (.fixed_fps (some ⟨JVal.num dt, some frames⟩)) defs
      = .fixed_fps (some ⟨JVal.num ((max 8 (round dt) : ℤ) : ℚ), some (frames.map (clampMap defs))⟩)
    ∧ (8 : ℤ) ≤ max 8 (round dt) := by
  constructor
  · simp [clampCore, jOrNum, JVal.jsTruthy, JVal.toNumber, jvalN, hdt]
  · exact le_max_left _ _

unseal Rat.mul Rat.inv Rat.add Rat.sub in
/-- C8 witness: the corrected statement at `dtMs = 5`, which becomes `8`. -/
theorem C8_witness :
    clampCore (.fixed_fps (some ⟨JVal.num 5, some []⟩)) []
      = .fixed_fps (some ⟨JVal.num ((max 8 (round (5 : ℚ)) : ℤ) : ℚ), some ([].map (clampMap []))⟩)
    ∧ (8 : ℤ) ≤ max 8 (round (5 : ℚ)) :=
  C8_theorem 5 [] [] (by norm_num)

/-! ### Claim C9 -/

unseal Rat.mul Rat.inv Rat.add Rat.sub in
/-- C9 counterexample: the word text `"a.b"` does not END in sentence
punctuation, yet the fallback (word at `startMs = 1000`, catalog
`ParamAngleY [-10,10]`, fps 60) emits the nod `ParamAngleY = 3` — the source
tests `/[.!?]/.test(text)`, i.e. containment, not a suffix. -/
theorem C9_counterexample :
    (match simpleFallbackTimeline oZero [JWord.obj ⟨JVal.num 1000, JVal.num 1000, some "a.b"⟩] []
        [⟨"ParamAngleY", -10, 10, 0, false, ""⟩] 60 with
     | FbResult.ok _ fs =>
         fs.any fun f => f.any fun kv => kv.1 == "ParamAngleY" && kv.2 == JVal.num 3
     | _ => false) = true
    ∧ endsInSentencePunct "a.b" = false := by
  exact ⟨by decide, by decide⟩

/-- C9 (corrected): when `ParamAngleY` is in the definitions, the frame the
fallback builds for time `t` carries the fixed nod value `3.0` exactly when
some word's text CONTAINS one of `. ! ?` (not necessarily as its final
character) and that word's start time is strictly within 200 ms of `t`. -/
theorem C9_theorem (o : SinOracle) (words : List WordRec) (defs : List ParamDef) (t : ℚ)
    (hangle : defs.any (fun d => d.id = "ParamAngleY") = true) :
    ("ParamAngleY", JVal.num 3) ∈ frameAt o words defs t ↔
      ∃ w ∈ words, testPunct w.text = true ∧
        ∃ q, jOrNum w.startMs 0 = some q ∧ |q - t| < 200 := by
  rw [← nodAny_iff]
  unfold frameAt
  simp only [hangle, Bool.true_and, List.mem_append]
  constructor
  · intro hmem
    rcases hmem with (hmem | hmem) | hmem
    · split at hmem <;> simp_all
    · split at hmem <;> simp_all
    · split at hmem
      · assumption
      · simp at hmem
  · intro hcond
    refine Or.inr ?_
    rw [if_pos hcond]
    simp

/-- C9 witness: the corrected equivalence at a concrete input (no word, so
no nod on the frame). -/
theorem C9_witness :
    ("ParamAngleY", JVal.num 3) ∈ frameAt oZero [] [⟨"ParamAngleY", -10, 10, 0, false, ""⟩] 0 ↔
      ∃ w ∈ ([] : List WordRec), testPunct w.text = true ∧
        ∃ q, jOrNum w.startMs 0 = some q ∧ |q - (0 : ℚ)| < 200 :=
  C9_theorem oZero [] [⟨"ParamAngleY", -10, 10, 0, false, ""⟩] 0 (by decide)

/-! ### Claim C10 -/

/-- C10 (confirmed): a keyframe supplying only `set` is read exactly as one
supplying the same map under `params` (the source's
`kf.params || kf.set || {}`), and every output keyframe stores its clamped
map under `params` with no `set` key. -/
theorem C10_theorem (defs : List ParamDef) (tm : JVal) (m : PMap) (kfs : List JKeyframe) :
    clampCore (.keyframes (some [⟨tm, none, some m⟩])) defs
      = clampCore (.keyframes (some [⟨tm, some m, none⟩])) defs
    ∧ ∀ l, clampCore (.keyframes (some kfs)) defs = .keyframes (some l) →
        ∀ kf ∈ l, kf.set = none ∧ kf.params.isSome = true := by
  constructor
  · simp [clampCore]
  · intro l hl kf hkf
    simp only [clampCore, JTimeline.keyframes.injEq, Option.some.injEq, Option.getD_some] at hl
    rw [← hl] at hkf
    rcases List.mem_map.mp hkf with ⟨kf₀, _, rfl⟩
    exact ⟨rfl, rfl⟩

unseal Rat.mul Rat.inv Rat.add Rat.sub in
/-- C10 witness: the equivalence and the output shape at a concrete
set-only keyframe. -/
theorem C10_witness :
    (⟨JVal.num 0, some [], none⟩ : JKeyframe).set = none
    ∧ (⟨JVal.num 0, some [], none⟩ : JKeyframe).params.isSome = true :=
  (C10_theorem [] (JVal.num 0) [] [⟨JVal.num 0, none, some []⟩]).2
    [⟨JVal.num 0, some [], none⟩] (by decide) _ (by decide)

/-! ### Idempotence of the clamp (claim C6) -/

theorem clamp_idem (v a b : ℚ) : clamp (clamp v a b) a b = clamp v a b := by
  unfold clamp
  rw [min_max_distrib_left, ← min_assoc, min_self, ← max_assoc,
    max_eq_left (min_le_right b a)]

theorem round_clamp_round (v a b : ℚ) :
    round (clamp ((round (clamp v a b) : ℤ) : ℚ) a b) = round (clamp v a b) := by
  rcases le_or_lt a b with hab | hab
  · have hac : a ≤ clamp v a b := le_max_left _ _
    have hcb : clamp v a b ≤ b := max_le hab (min_le_left _ _)
    set c := clamp v a b with hc
    set r := round c with hr
    have habs := abs_sub_round c
    rw [abs_le] at habs
    obtain ⟨h1, h2⟩ := habs
    rcases lt_or_le ((r : ℤ) : ℚ) a with hra | har
    · have hrb : ((r : ℤ) : ℚ) ≤ b := le_trans (le_of_lt hra) hab
      have hclamp : clamp ((r : ℤ) : ℚ) a b = a := by
        unfold clamp
        rw [min_eq_right hrb, max_eq_left (le_of_lt hra)]
      rw [hclamp, round_eq]
      have hcle : c ≤ ((r : ℤ) : ℚ) + 1 / 2 := by linarith
      have hstrict : a < ((r : ℤ) : ℚ) + 1 / 2 := by
        by_contra hcon
        push_neg at hcon
        have hceq : c = ((r : ℤ) : ℚ) + 1 / 2 := le_antisymm hcle (le_trans hcon hac)
        have hrr : r = ⌊c + 1 / 2⌋ := by rw [hr, round_eq]
        rw [hceq] at hrr
        have hcast : ((r : ℤ) : ℚ) + 1 / 2 + 1 / 2 = ((r + 1 : ℤ) : ℚ) := by
          push_cast
          ring
        rw [hcast, Int.floor_intCast] at hrr
        omega
      exact Int.floor_eq_iff.mpr ⟨by linarith, by linarith⟩
    · rcases le_or_lt ((r : ℤ) : ℚ) b with hrb | hbr
      · have hclamp : clamp ((r : ℤ) : ℚ) a b = ((r : ℤ) : ℚ) := by
          unfold clamp
          rw [min_eq_right hrb, max_eq_right har]
        rw [hclamp, round_intCast]
      · have hclamp : clamp ((r : ℤ) : ℚ) a b = b := by
          unfold clamp
          rw [min_eq_left (le_of_lt hbr), max_eq_right hab]
        rw [hclamp, round_eq]
        refine Int.floor_eq_iff.mpr ⟨by linarith, by linarith⟩
  · have h1 : clamp v a b = a := by
      unfold clamp
      exact max_eq_left (le_trans (min_le_left b v) hab.le)
    rw [h1]
    have h2 : clamp ((round a : ℤ) : ℚ) a b = a := by
      unfold clamp
      exact max_eq_left (le_trans (min_le_left _ _) hab.le)
    rw [h2]

theorem clampOne_idem (d : ParamDef) (q : ℚ) : clampOne d (clampOne d q) = clampOne d q := by
  unfold clampOne
  cases h : d.isToggleLike with
  | false => simp only [h, Bool.false_eq_true, if_false, clamp_idem]
  | true =>
      simp only [h, if_true]
      exact_mod_cast round_clamp_round q d.min d.max

theorem clampMap_idem (defs : List ParamDef) (m : PMap) :
    clampMap defs (clampMap defs m) = clampMap defs m := by
  induction m with
  | nil => rfl
  | cons kv t ih =>
      obtain ⟨k, v⟩ := kv
      rcases hb : byId defs k with _ | d
      · cases v <;>
          simp only [clampMap, List.filterMap_cons, hb] at ih ⊢ <;>
          exact ih
      · cases v with
        | num q =>
            simp only [clampMap, List.filterMap_cons, hb] at ih ⊢
            simp only [clampOne_idem]
            exact congrArg _ ih
        | nan =>
            simp only [clampMap, List.filterMap_cons, hb] at ih ⊢
            exact congrArg _ ih
        | other tr n =>
            simp only [clampMap, List.filterMap_cons, hb] at ih ⊢
            exact ih

theorem jOrNum_num_of_ne (q d : ℚ) (h : q ≠ 0) : jOrNum (.num q) d = some q := by
  unfold jOrNum JVal.jsTruthy JVal.toNumber
  simp [h]

theorem clampCore_idem (t : JTimeline) (defs : List ParamDef) (h : tlNumOk t = true) :
    clampCore (clampCore t defs) defs = clampCore t defs := by
  cases t with
  | otherShape => rfl
  | keyframes kfs =>
      simp only [clampCore, Option.getD_some]
      rw [List.map_map]
      refine congrArg _ (congrArg _ (List.map_congr_left ?_))
      intro kf hkf
      have hnum : kfNumOk kf = true := by
        simp only [tlNumOk] at h
        rw [List.all_eq_true] at h
        exact h kf hkf
      obtain ⟨q, hq⟩ := Option.isSome_iff_exists.mp hnum
      simp only [Function.comp_apply, hq, Option.map_some', jvalN, jOrNum_num_zero,
        Option.getD_some, clampMap_idem, round_intCast]
      rw [← max_assoc, max_self]
  | fixed_fps fx =>
      cases fx with
      | none => rfl
      | some f =>
          cases hfr : f.frames with
          | none => simp [clampCore, hfr]
          | some frames =>
              have hnum : (jOrNum f.dtMs (1000 / 60)).isSome = true := by
                simp only [tlNumOk, hfr] at h
                exact h
              obtain ⟨q, hq⟩ := Option.isSome_iff_exists.mp hnum
              have hm : ((max 8 (round q) : ℤ) : ℚ) ≠ 0 := by
                have : (8 : ℤ) ≤ max 8 (round q) := le_max_left _ _
                exact_mod_cast (by omega : (max 8 (round q) : ℤ) ≠ 0)
              simp only [clampCore, hfr, hq, Option.map_some', jvalN,
                jOrNum_num_of_ne _ _ hm, round_intCast, List.map_map]
              rw [← max_assoc, max_self]
              have hfrm : List.map (clampMap defs ∘ clampMap defs) frames
                  = List.map (clampMap defs) frames :=
                List.map_congr_left fun fr _ => clampMap_idem defs fr
              rw [hfrm]

unseal Rat.mul Rat.inv Rat.add Rat.sub in
/-- C6 counterexample: a keyframe whose `timeMs` is a truthy non-number with
NaN coercion (e.g. the JSON object `{}`).  The first clamp produces
`timeMs: NaN` (`Math.max(0, Math.round({} || 0)) = NaN`); NaN is falsy, so
the second clamp turns it into `Math.max(0, Math.round(0)) = 0` — the two
results differ, refuting idempotence as stated for arbitrary timelines. -/
theorem C6_counterexample :
    clampTimeline (clampTimeline
        (some (JTimeline.keyframes (some [⟨JVal.other true none, some [], none⟩]))) [])
        []
      ≠ clampTimeline
        (some (JTimeline.keyframes (some [⟨JVal.other true none, some [], none⟩]))) [] := by
  decide

/-- C6 (corrected): `clamp(clamp(T, D), D) = clamp(T, D)` for every
definition list `D` and every timeline `T` whose keyframe `timeMs` fields
(resp. `dtMs`) are numbers or falsy, i.e. whose `|| default` coercion does
not produce NaN; a truthy non-numeric `timeMs` breaks idempotence (NaN on
the first pass, `0` on the second). -/
theorem C6_theorem (T : Option JTimeline) (defs : List ParamDef)
    (h : T.all tlNumOk = true) :
    clampTimeline (clampTimeline T defs) defs = clampTimeline T defs := by
  cases T with
  | none => rfl
  | some t =>
      simp only [Option.all_some] at h
      simp only [clampTimeline, Option.map_some]
      exact congrArg some (clampCore_idem t defs h)

/-! ### Invariants after clamping (claim C4) -/

theorem byId_aux_mem (defs : List ParamDef) (k : String) (init : Option ParamDef) (d : ParamDef)
    (h : defs.foldl (fun acc x => if x.id = k then some x else acc) init = some d) :
    (d ∈ defs ∧ d.id = k) ∨ init = some d := by
  induction defs generalizing init with
  | nil => exact Or.inr h
  | cons x t ih =>
      simp only [List.foldl_cons] at h
      rcases ih _ h with ⟨hmem, hid⟩ | hinit
      · exact Or.inl ⟨List.mem_cons_of_mem _ hmem, hid⟩
      · by_cases hx : x.id = k
        · rw [if_pos hx] at hinit
          injection hinit with h2
          subst h2
          exact Or.inl ⟨List.mem_cons_self _ _, hx⟩
        · rw [if_neg hx] at hinit
          exact Or.inr hinit

theorem byId_mem (defs : List ParamDef) (k : String) (d : ParamDef)
    (h : byId defs k = some d) : d ∈ defs ∧ d.id = k := by
  rcases byId_aux_mem defs k none d h with h1 | h1
  · exact h1
  · cases h1

theorem clampMap_inv (defs : List ParamDef)
    (hwf : ∀ d ∈ defs, d.min ≤ d.max)
    (htog : ∀ d ∈ defs, d.isToggleLike = true → d.min.den = 1 ∧ d.max.den = 1)
    (m : PMap) (hm : pmClean m = true) :
    mapInv defs (clampMap defs m) = true := by
  rw [mapInv, List.all_eq_true]
  intro kv hkv
  rcases List.mem_filterMap.mp hkv with ⟨⟨k₀, v₀⟩, hmem, hf⟩
  rcases hb : byId defs k₀ with _ | d <;> rw [hb] at hf
  · cases v₀ <;> simp at hf
  · cases v₀ with
    | num q =>
        simp only [Option.some.injEq] at hf
        subst hf
        obtain ⟨hdefs, _⟩ := byId_mem defs k₀ d hb
        simp only [valueInv, hb]
        unfold clampOne
        cases htg : d.isToggleLike with
        | false =>
            have h1 : d.min ≤ clamp q d.min d.max := le_max_left _ _
            have h2 : clamp q d.min d.max ≤ d.max := max_le (hwf d hdefs) (min_le_left _ _)
            simp [htg, h1, h2]
        | true =>
            obtain ⟨hmden, hxden⟩ := htog d hdefs htg
            have hminc : ((d.min.num : ℤ) : ℚ) = d.min := Rat.coe_int_num_of_den_eq_one hmden
            have hmaxc : ((d.max.num : ℤ) : ℚ) = d.max := Rat.coe_int_num_of_den_eq_one hxden
            have hr1 : round d.min ≤ round (clamp q d.min d.max) :=
              round_mono_rat (le_max_left _ _)
            have hr2 : round (clamp q d.min d.max) ≤ round d.max :=
              round_mono_rat (max_le (hwf d hdefs) (min_le_left _ _))
            have hr1' : round d.min = d.min.num := hminc ▸ round_intCast d.min.num
            have hr2' : round d.max = d.max.num := hmaxc ▸ round_intCast d.max.num
            have h1 : d.min ≤ ((round (clamp q d.min d.max) : ℤ) : ℚ) := by
              calc d.min = ((d.min.num : ℤ) : ℚ) := hminc.symm
                _ ≤ _ := by exact_mod_cast hr1' ▸ hr1
            have h2 : ((round (clamp q d.min d.max) : ℤ) : ℚ) ≤ d.max := by
              calc ((round (clamp q d.min d.max) : ℤ) : ℚ)
                  ≤ ((d.max.num : ℤ) : ℚ) := by exact_mod_cast hr2' ▸ hr2
                _ = d.max := hmaxc
            have h3 : (((round (clamp q d.min d.max) : ℤ) : ℚ)).den = 1 := Rat.den_intCast _
            simp [htg, h1, h2, h3]
    | nan =>
        rw [pmClean, List.all_eq_true] at hm
        have := hm _ hmem
        simp at this
    | other tr n => simp at hf

unseal Rat.mul Rat.inv Rat.add Rat.sub in
/-- C4 counterexample: a toggle-like definition with a fractional upper
bound, `X ∈ [0, 0.6]` toggle-like, and the shape-valid candidate keyframe
`{timeMs: 0, params: {X: 0.6}}`.  Clamping keeps `0.6` and then snaps it to
`round(0.6) = 1 > 0.6`: the retained value violates `value ≤ max`, so the
claimed post-validation invariant fails even for a definition list
satisfying `min ≤ default ≤ max`. -/
theorem C4_counterexample :
    clampCore (.keyframes (some [⟨JVal.num 0, some [("X", JVal.num (3/5))], none⟩]))
        [⟨"X", 0, 3/5, 0, true, "toggle"⟩]
      = .keyframes (some [⟨JVal.num 0, some [("X", JVal.num 1)], none⟩])
    ∧ ¬((1 : ℚ) ≤ 3/5) := by
  exact ⟨by decide, by decide⟩

/-- C4 (corrected): for a timeline of one of the two recognized shapes whose
`timeMs`/`dtMs` fields are numeric-or-falsy and whose parameter values are
not NaN (all JSON-parse outputs with numeric-or-absent time fields qualify),
and for definitions with `min ≤ max` whose toggle-like entries have integral
bounds, the clamped output satisfies the invariant: every retained id is in
the definitions, every value lies in `[min, max]`, toggle-like values are
integral, keyframe `timeMs ≥ 0`, and `dtMs ≥ 8`.  (With a fractional toggle
bound the snapped value can leave the range, and with a truthy non-numeric
`timeMs` the output `timeMs` is NaN — see the counterexample.) -/
theorem C4_theorem (t : JTimeline) (defs : List ParamDef)
    (hshape : (isFixedShape t || isKeyedShape t) = true)
    (hnum : tlNumOk t = true) (hnan : tlNanFree t = true)
    (hwf : ∀ d ∈ defs, d.min ≤ d.max)
    (htog : ∀ d ∈ defs, d.isToggleLike = true → d.min.den = 1 ∧ d.max.den = 1) :
    timelineInvariant defs (clampCore t defs) = true := by
  cases t with
  | otherShape => simp [isFixedShape, isKeyedShape] at hshape
  | keyframes kfs =>
      cases kfs with
      | none => simp [isFixedShape, isKeyedShape] at hshape
      | some l =>
          simp only [clampCore, Option.getD_some, timelineInvariant]
          rw [List.all_eq_true]
          intro kf' hkf'
          rcases List.mem_map.mp hkf' with ⟨kf, hkf, rfl⟩
          have hnum' : kfNumOk kf = true := by
            simp only [tlNumOk, Option.getD_some] at hnum
            rw [List.all_eq_true] at hnum
            exact hnum kf hkf
          obtain ⟨q, hq⟩ := Option.isSome_iff_exists.mp hnum'
          have hnan' : pmClean ((kf.params).getD ((kf.set).getD [])) = true := by
            simp only [tlNanFree, Option.getD_some] at hnan
            rw [List.all_eq_true] at hnan
            exact hnan kf hkf
          have h0 : (0 : ℚ) ≤ ((max 0 (round q) : ℤ) : ℚ) := by
            exact_mod_cast le_max_left 0 (round q)
          simp only [hq, Option.map_some', jvalN, Option.getD_some]
          simp [h0, clampMap_inv defs hwf htog _ hnan']
  | fixed_fps fx =>
      cases fx with
      | none => simp [isFixedShape, isKeyedShape] at hshape
      | some f =>
          cases hfr : f.frames with
          | none => simp [isFixedShape, isKeyedShape, hfr] at hshape
          | some frames =>
              have hnum' : (jOrNum f.dtMs (1000 / 60)).isSome = true := by
                simp only [tlNumOk, hfr] at hnum
                exact hnum
              obtain ⟨q, hq⟩ := Option.isSome_iff_exists.mp hnum'
              have h8 : (8 : ℚ) ≤ ((max 8 (round q) : ℤ) : ℚ) := by
                exact_mod_cast le_max_left 8 (round q)
              simp only [clampCore, hfr, hq, Option.map_some', jvalN, timelineInvariant,
                Option.getD_some]
              rw [Bool.and_eq_true, List.all_eq_true]
              refine ⟨by simp [h8], ?_⟩
              intro m hmem
              rcases List.mem_map.mp hmem with ⟨m₀, hm₀, rfl⟩
              have hnan' : pmClean m₀ = true := by
                simp only [tlNanFree, hfr, Option.getD_some] at hnan
                rw [List.all_eq_true] at hnan
                exact hnan m₀ hm₀
              exact clampMap_inv defs hwf htog _ hnan'

unseal Rat.mul Rat.inv Rat.add Rat.sub in
/-- C4 witness: the invariant holds on the spec scenario — keyframe
`{timeMs:-5, params:{ParamX: 999}}` against `ParamX [0,1]`. -/
theorem C4_witness :
    timelineInvariant [⟨"ParamX", 0, 1, 0, false, ""⟩]
      (clampCore
        (.keyframes (some [⟨JVal.num (-5), some [("ParamX", JVal.num 999)], none⟩]))
        [⟨"ParamX", 0, 1, 0, false, ""⟩]) = true := by
  refine C4_theorem
    (.keyframes (some [⟨JVal.num (-5), some [("ParamX", JVal.num 999)], none⟩]))
    [⟨"ParamX", 0, 1, 0, false, ""⟩] (by decide) (by decide) (by decide) ?_ ?_
  · intro d hd
    simp at hd
    subst hd
    norm_num
  · intro d hd htg
    simp at hd
    subst hd
    simp at htg

unseal Rat.mul Rat.inv Rat.add Rat.sub in
/-- C6 witness: idempotence on the spec scenario timeline. -/
theorem C6_witness :
    clampTimeline (clampTimeline
        (some (JTimeline.keyframes (some [⟨JVal.num (-5), some [("ParamX", JVal.num 999)], none⟩])))
        [⟨"ParamX", 0, 1, 0, false, ""⟩]) [⟨"ParamX", 0, 1, 0, false, ""⟩]
      = clampTimeline
        (some (JTimeline.keyframes (some [⟨JVal.num (-5), some [("ParamX", JVal.num 999)], none⟩])))
        [⟨"ParamX", 0, 1, 0, false, ""⟩] :=
  C6_theorem
    (some (JTimeline.keyframes (some [⟨JVal.num (-5), some [("ParamX", JVal.num 999)], none⟩])))
    [⟨"ParamX", 0, 1, 0, false, ""⟩] (by decide)

/-! ### Handler path lemmas (claims C1, C2, C7) -/

theorem any_nullish_false_w (ws : List JWord) (hw : ∀ w ∈ ws, w ≠ JWord.nullish) :
    (ws.any fun w => decide (w = JWord.nullish)) = false := by
  by_contra hcon
  rw [Bool.not_eq_false, List.any_eq_true] at hcon
  rcases hcon with ⟨w, hmem, hdec⟩
  exact hw w hmem (of_decide_eq_true hdec)

theorem any_nullish_false_v (vs : List JViseme) (hv : ∀ v ∈ vs, v ≠ JViseme.nullish) :
    (vs.any fun v => decide (v = JViseme.nullish)) = false := by
  by_contra hcon
  rw [Bool.not_eq_false, List.any_eq_true] at hcon
  rcases hcon with ⟨v, hmem, hdec⟩
  exact hv v hmem (of_decide_eq_true hdec)

theorem simpleFallback_runs (o : SinOracle) (ws : List JWord) (vs : List JViseme)
    (defs : List ParamDef) (fps : ℚ)
    (hw : ∀ w ∈ ws, w ≠ JWord.nullish) (hv : ∀ v ∈ vs, v ≠ JViseme.nullish)
    (hdt : 1 ≤ round (1000 / max 1 fps)) :
    ∃ dt frames, simpleFallbackTimeline o ws vs defs fps = .ok dt frames := by
  apply fbResult_ok_of_ne
  · unfold simpleFallbackTimeline
    rw [any_nullish_false_w ws hw, any_nullish_false_v vs hv]
    simp only [Bool.or_self, Bool.false_eq_true, if_false]
    split
    · simp
    · split
      · next hle => omega
      · simp
  · unfold simpleFallbackTimeline
    rw [any_nullish_false_w ws hw, any_nullish_false_v vs hv]
    simp only [Bool.or_self, Bool.false_eq_true, if_false]
    split
    · simp
    · split
      · next hle => omega
      · simp

theorem simpleFallback_frames_len (o : SinOracle) (ws : List JWord) (vs : List JViseme)
    (defs : List ParamDef) (fps : ℚ) (dt : ℤ) (frames : List PMap)
    (hwn : ∀ w ∈ ws, wordNumOk w) (hvn : ∀ v ∈ vs, visNumOk v)
    (h : simpleFallbackTimeline o ws vs defs fps = .ok dt frames) :
    1 ≤ frames.length := by
  unfold simpleFallbackTimeline at h
  split at h
  · cases h
  · have hWm : ((wordRecs ws).foldl (fun m w => jsMax m (jOrNum w.endMs 0))
        (some 0)).isSome = true := by
      apply foldl_jsMax_isSome
      intro w hwmem
      rcases List.mem_filterMap.mp hwmem with ⟨jw, hjw, hf⟩
      cases jw with
      | obj r =>
          injection hf with hf
          subst hf
          exact hwn _ hjw
      | nullish => cases hf
    have hVm : ((visemeRecs vs).foldl (fun m v => jsMax m (jOrNum v.startMs 0))
        (some 0)).isSome = true := by
      apply foldl_jsMax_isSome
      intro v hvmem
      rcases List.mem_filterMap.mp hvmem with ⟨jv, hjv, hf⟩
      cases jv with
      | obj r =>
          injection hf with hf
          subst hf
          exact hvn _ hjv
      | nullish => cases hf
    simp only [] at h
    split at h
    · next heq =>
        obtain ⟨qw, hqw⟩ := Option.isSome_iff_exists.mp hWm
        obtain ⟨qv, hqv⟩ := Option.isSome_iff_exists.mp hVm
        rw [hqw, hqv] at heq
        simp [jsMax] at heq
    · split at h
      · cases h
      · injection h with h1 h2
        subst h2
        simp

theorem simpleFallback_frames_are (o : SinOracle) (ws : List JWord) (vs : List JViseme)
    (defs : List ParamDef) (fps : ℚ) (dt : ℤ) (frames : List PMap)
    (h : simpleFallbackTimeline o ws vs defs fps = .ok dt frames) :
    ∀ fr ∈ frames, ∃ t, fr = frameAt o (wordRecs ws) defs t := by
  unfold simpleFallbackTimeline at h
  split at h
  · cases h
  · simp only [] at h
    split at h
    · injection h with h1 h2
      subst h2
      intro fr hfr
      cases hfr
    · split at h
      · cases h
      · injection h with h1 h2
        subst h2
        intro fr hfr
        rcases List.mem_map.mp hfr with ⟨i, _, rfl⟩
        exact ⟨_, rfl⟩

theorem fallbackClamped_eq (o : SinOracle) (ws : List JWord) (vs : List JViseme)
    (defsUsed : List ParamDef) (fps : ℚ) (dt : ℤ) (frames : List PMap)
    (h : simpleFallbackTimeline o ws vs defsUsed fps = .ok dt frames) :
    fallbackClamped o ws vs defsUsed fps
      = .timeline (clampCore (.fixed_fps (some ⟨JVal.num (dt : ℚ), some frames⟩)) defsUsed) := by
  unfold fallbackClamped
  rw [h]

theorem fallbackClamped_ne_badInput (o : SinOracle) (ws : List JWord) (vs : List JViseme)
    (defsUsed : List ParamDef) (fps : ℚ) :
    fallbackClamped o ws vs defsUsed fps ≠ .badInput := by
  unfold fallbackClamped
  split <;> simp

theorem fallbackClamped_count (o : SinOracle) (ws : List JWord) (vs : List JViseme)
    (defsUsed : List ParamDef) (fps : ℚ) (t : JTimeline)
    (hwn : ∀ w ∈ ws, wordNumOk w) (hvn : ∀ v ∈ vs, visNumOk v)
    (h : fallbackClamped o ws vs defsUsed fps = .timeline t) :
    1 ≤ timelineCount t := by
  unfold fallbackClamped at h
  split at h
  · cases h
  · cases h
  · next dt frames heq =>
      injection h with ht
      subst ht
      have hlen := simpleFallback_frames_len o ws vs defsUsed fps dt frames hwn hvn heq
      simp only [clampCore, timelineCount, Option.getD_some, List.length_map]
      exact hlen

theorem count_pos_of_not_empty (cand : JTimeline) (defs : List ParamDef)
    (hshape : (isFixedShape cand || isKeyedShape cand) = true)
    (hne : emptyAfterClamp (clampCore cand defs) = false) :
    1 ≤ timelineCount (clampCore cand defs) := by
  cases cand with
  | otherShape => simp [isFixedShape, isKeyedShape] at hshape
  | keyframes kfs =>
      cases kfs with
      | none => simp [isFixedShape, isKeyedShape] at hshape
      | some l =>
          simp only [clampCore, emptyAfterClamp, Option.getD_some, timelineCount] at hne ⊢
          cases l with
          | nil => simp at hne
          | cons x xs => simp
  | fixed_fps fx =>
      cases fx with
      | none => simp [isFixedShape, isKeyedShape] at hshape
      | some f =>
          cases hfr : f.frames with
          | none => simp [isFixedShape, isKeyedShape, hfr] at hshape
          | some frames =>
              simp only [clampCore, hfr, emptyAfterClamp, Option.getD_some, timelineCount]
                at hne ⊢
              cases frames with
              | nil => simp at hne
              | cons x xs => simp

theorem live2dHandler_arr_ne_badInput (o : SinOracle) (ws : List JWord) (vs : List JViseme)
    (cat : JCatalog) (fps : ℚ) (llm : LLMResult) :
    live2dHandler o (.arr ws) (.arr vs) cat fps llm ≠ .badInput := by
  simp only [live2dHandler]
  rcases hp : parseCatalogJS cat with _ | defs <;> simp only [hp]
  · simp
  by_cases hdefs : defs.isEmpty
  · rw [if_pos hdefs]
    split <;> simp
  · rw [if_neg hdefs]
    cases llm with
    | throws => exact fallbackClamped_ne_badInput o ws vs _ fps
    | output oj =>
        cases oj with
        | none => exact fallbackClamped_ne_badInput o ws vs _ fps
        | some cand =>
            cases cand with
            | keyedWithNullish => exact fallbackClamped_ne_badInput o ws vs _ fps
            | tl cand =>
                show (if (isFixedShape cand || isKeyedShape cand) = true then
                    if emptyAfterClamp (clampCore cand (defs.take 280)) = true then
                      fallbackClamped o ws vs (defs.take 280) fps
                    else HResult.timeline (clampCore cand (defs.take 280))
                  else fallbackClamped o ws vs (defs.take 280) fps) ≠ HResult.badInput
                by_cases hsh : (isFixedShape cand || isKeyedShape cand) = true
                · rw [if_pos hsh]
                  by_cases hemp :
                      emptyAfterClamp (clampCore cand (defs.take 280)) = true
                  · rw [if_pos hemp]
                    exact fallbackClamped_ne_badInput o ws vs _ fps
                  · rw [if_neg hemp]
                    simp
                · rw [if_neg hsh]
                  exact fallbackClamped_ne_badInput o ws vs _ fps

theorem byId_aux_none (defs : List ParamDef) (k : String) (init : Option ParamDef) :
    (defs.foldl (fun acc x => if x.id = k then some x else acc) init = none) ↔
    (init = none ∧ ∀ d ∈ defs, d.id ≠ k) := by
  induction defs generalizing init with
  | nil => simp
  | cons x t ih =>
      simp only [List.foldl_cons, ih]
      by_cases hx : x.id = k
      · simp [hx]
      · simp only [if_neg hx, List.mem_cons]
        constructor
        · rintro ⟨h1, h2⟩
          exact ⟨h1, fun d hd => hd.elim (fun he => he ▸ hx) (h2 d)⟩
        · rintro ⟨h1, h2⟩
          exact ⟨h1, fun d hd => h2 d (Or.inr hd)⟩

theorem byId_isSome_iff (defs : List ParamDef) (k : String) :
    (byId defs k).isSome = true ↔ ∃ d ∈ defs, d.id = k := by
  constructor
  · intro h
    obtain ⟨d, hd⟩ := Option.isSome_iff_exists.mp h
    obtain ⟨hmem, hid⟩ := byId_mem defs k d hd
    exact ⟨d, hmem, hid⟩
  · rintro ⟨d, hmem, hid⟩
    cases hb : byId defs k with
    | some x => rfl
    | none =>
        rw [byId] at hb
        obtain ⟨-, hall⟩ := (byId_aux_none defs k none).mp hb
        exact absurd hid (hall d hmem)

theorem byId_take_isSome (defs : List ParamDef) (n : ℕ) (k : String)
    (h : (byId (defs.take n) k).isSome = true) : (byId defs k).isSome = true := by
  rw [byId_isSome_iff] at h ⊢
  rcases h with ⟨d, hmem, hid⟩
  exact ⟨d, List.take_subset n defs hmem, hid⟩

theorem clampMap_key_found (defs : List ParamDef) (m : PMap) (kv : String × JVal)
    (h : kv ∈ clampMap defs m) : (byId defs kv.1).isSome = true := by
  rcases List.mem_filterMap.mp h with ⟨⟨k₀, v₀⟩, _, hf⟩
  rcases hb : byId defs k₀ with _ | d <;> rw [hb] at hf
  · cases v₀ <;> simp at hf
  · cases v₀ with
    | num q =>
        simp only [Option.some.injEq] at hf
        subst hf
        simp [hb]
    | nan =>
        simp only [Option.some.injEq] at hf
        subst hf
        simp [hb]
    | other tr n => simp at hf

theorem clampCore_ids (cand : JTimeline) (defs : List ParamDef) :
    ∀ k ∈ timelineParamIds (clampCore cand defs), (byId defs k).isSome = true := by
  intro k hk
  cases cand with
  | otherShape => cases hk
  | keyframes kfs =>
      simp only [clampCore, timelineParamIds, Option.getD_some] at hk
      rw [List.mem_flatten] at hk
      rcases hk with ⟨ids, hids, hkin⟩
      rcases List.mem_map.mp hids with ⟨kf', hkf', rfl⟩
      rcases List.mem_map.mp hkf' with ⟨kf, _, rfl⟩
      simp only [Option.getD_some, Option.getD_none, List.map_nil, List.append_nil] at hkin
      rcases List.mem_map.mp hkin with ⟨kv, hkv, rfl⟩
      exact clampMap_key_found defs _ kv hkv
  | fixed_fps fx =>
      cases fx with
      | none => cases hk
      | some f =>
          cases hfr : f.frames with
          | none =>
              simp [clampCore, hfr, timelineParamIds] at hk
          | some frames =>
              simp only [clampCore, hfr, timelineParamIds, Option.getD_some] at hk
              rw [List.mem_flatten] at hk
              rcases hk with ⟨ids, hids, hkin⟩
              rcases List.mem_map.mp hids with ⟨m', hm', rfl⟩
              rcases List.mem_map.mp hm' with ⟨m, _, rfl⟩
              rcases List.mem_map.mp hkin with ⟨kv, hkv, rfl⟩
              exact clampMap_key_found defs _ kv hkv

theorem frameAt_ids (o : SinOracle) (recs : List WordRec) (defs : List ParamDef) (t : ℚ) :
    ∀ kv ∈ frameAt o recs defs t, (byId defs kv.1).isSome = true := by
  intro kv hkv
  unfold frameAt at hkv
  rw [List.mem_append, List.mem_append] at hkv
  rcases hkv with (hkv | hkv) | hkv
  · split at hkv
    · next hc =>
        simp only [List.mem_singleton] at hkv
        subst hkv
        rw [byId_isSome_iff]
        rcases List.any_eq_true.mp hc with ⟨d, hd, hid⟩
        exact ⟨d, hd, of_decide_eq_true hid⟩
    · cases hkv
  · split at hkv
    · next hc =>
        rw [Bool.and_eq_true, Bool.and_eq_true] at hc
        obtain ⟨⟨hL, hR⟩, -⟩ := hc
        simp only [List.mem_cons, List.not_mem_nil, or_false] at hkv
        rcases hkv with hkv | hkv
        · subst hkv
          rw [byId_isSome_iff]
          rcases List.any_eq_true.mp hL with ⟨d, hd, hid⟩
          exact ⟨d, hd, of_decide_eq_true hid⟩
        · subst hkv
          rw [byId_isSome_iff]
          rcases List.any_eq_true.mp hR with ⟨d, hd, hid⟩
          exact ⟨d, hd, of_decide_eq_true hid⟩
    · cases hkv
  · split at hkv
    · next hc =>
        rw [Bool.and_eq_true] at hc
        obtain ⟨hA, -⟩ := hc
        simp only [List.mem_singleton] at hkv
        subst hkv
        rw [byId_isSome_iff]
        rcases List.any_eq_true.mp hA with ⟨d, hd, hid⟩
        exact ⟨d, hd, of_decide_eq_true hid⟩
    · cases hkv

/-! ### Claim C1 -/

unseal Rat.mul Rat.inv Rat.add Rat.sub in
/-- C1 counterexample, two uncaught-throw routes.  (1) `words = [null]`,
`visemes = []`, empty catalog: both fields are arrays, yet the handler
throws — the empty catalog routes to `simpleFallbackTimeline`, whose
`words.reduce((m,w) => Math.max(m, w.endMs || 0))` evaluates `null.endMs`
and raises a TypeError outside any try/catch.  (2) `parameterCatalog = 42`
(a truthy non-string): the array check at line 295 passes, and
`(txt || '').split` at line 299 — outside the try/catch — throws a
TypeError.  In both cases the async handler's promise rejects and no
response is produced, refuting "never raises to its caller" and "the only
error response it can produce". -/
theorem C1_counterexample :
    live2dHandler oZero (.arr [JWord.nullish]) (.arr []) (.str "") 60 (.output none)
      = HResult.thrown
    ∧ live2dHandler oZero (.arr []) (.arr []) (.nonstr true) 60 (.output none)
      = HResult.thrown := by
  exact ⟨by decide, by decide⟩

/-- C1 (corrected): for requests whose `words`/`visemes` are arrays of
non-nullish elements (property access on a `null`/`undefined` element
throws), whose `parameterCatalog` is not a truthy non-string value (on
which `(txt || '').split` throws outside the try/catch), and whose fps
keeps the fallback's frame step positive (`fps ≤ 2000`; beyond that the
fallback loops forever), the handler always responds with a timeline — it
never throws and never returns any error — and the 400 input-shape error
is returned exactly for a non-array `words` or `visemes`. -/
theorem C1_theorem (o : SinOracle) (ws : List JWord) (vs : List JViseme) (cat : JCatalog)
    (fps : ℚ) (llm : LLMResult)
    (hw : ∀ w ∈ ws, w ≠ JWord.nullish) (hv : ∀ v ∈ vs, v ≠ JViseme.nullish)
    (hfps : fps ≤ 2000) (hcat : cat ≠ JCatalog.nonstr true) :
    (∃ t, live2dHandler o (.arr ws) (.arr vs) cat fps llm = .timeline t)
    ∧ ∀ (words : JArr JWord) (visemes : JArr JViseme),
        (live2dHandler o words visemes cat fps llm = .badInput ↔
          (words.isArr = false ∨ visemes.isArr = false)) := by
  have hdt := dt_ge_one_of_fps_le fps hfps
  obtain ⟨defs, hp⟩ : ∃ defs, parseCatalogJS cat = some defs := by
    cases cat with
    | str s => exact ⟨parseCatalog s, rfl⟩
    | nonstr b =>
        cases b with
        | false => exact ⟨parseCatalog "", rfl⟩
        | true => exact absurd rfl hcat
  constructor
  · simp only [live2dHandler, hp]
    by_cases hdefs : defs.isEmpty
    · rw [if_pos hdefs]
      obtain ⟨dt, frames, heq⟩ := simpleFallback_runs o ws vs [] fps hw hv hdt
      rw [heq]
      exact ⟨_, rfl⟩
    · rw [if_neg hdefs]
      cases llm with
      | throws =>
          obtain ⟨dt, frames, heq⟩ := simpleFallback_runs o ws vs defs fps hw hv hdt
          rw [fallbackClamped_eq o ws vs _ fps dt frames heq]
          exact ⟨_, rfl⟩
      | output oj =>
          cases oj with
          | none =>
              obtain ⟨dt, frames, heq⟩ :=
                simpleFallback_runs o ws vs (defs.take 280) fps hw hv hdt
              rw [fallbackClamped_eq o ws vs _ fps dt frames heq]
              exact ⟨_, rfl⟩
          | some cand =>
              cases cand with
              | keyedWithNullish =>
                  obtain ⟨dt, frames, heq⟩ := simpleFallback_runs o ws vs defs fps hw hv hdt
                  rw [fallbackClamped_eq o ws vs _ fps dt frames heq]
                  exact ⟨_, rfl⟩
              | tl cand =>
                  show ∃ t, (if (isFixedShape cand || isKeyedShape cand) = true then
                      if emptyAfterClamp (clampCore cand (defs.take 280)) = true then
                        fallbackClamped o ws vs (defs.take 280) fps
                      else HResult.timeline (clampCore cand (defs.take 280))
                    else fallbackClamped o ws vs (defs.take 280) fps) = .timeline t
                  obtain ⟨dt, frames, heq⟩ :=
                    simpleFallback_runs o ws vs (defs.take 280) fps hw hv hdt
                  by_cases hsh : (isFixedShape cand || isKeyedShape cand) = true
                  · rw [if_pos hsh]
                    by_cases hemp :
                        emptyAfterClamp (clampCore cand (defs.take 280)) = true
                    · rw [if_pos hemp, fallbackClamped_eq o ws vs _ fps dt frames heq]
                      exact ⟨_, rfl⟩
                    · rw [if_neg hemp]
                      exact ⟨_, rfl⟩
                  · rw [if_neg hsh, fallbackClamped_eq o ws vs _ fps dt frames heq]
                    exact ⟨_, rfl⟩
  · intro words visemes
    constructor
    · intro hbad
      cases words with
      | notArr => simp [JArr.isArr]
      | arr ws' =>
          cases visemes with
          | notArr => simp [JArr.isArr]
          | arr vs' => exact absurd hbad (live2dHandler_arr_ne_badInput o ws' vs' cat fps llm)
    · intro hor
      cases words with
      | notArr => rfl
      | arr ws' =>
          cases visemes with
          | notArr => rfl
          | arr vs' => simp [JArr.isArr] at hor

/-- C1 witness: the corrected statement at a concrete benign request — the
handler does not return the input-shape error. -/
theorem C1_witness :
    live2dHandler oZero (.arr []) (.arr []) (.str "") 60 (.output none) ≠ HResult.badInput := by
  have h := (C1_theorem oZero [] [] (.str "") 60 (.output none) (by simp) (by simp)
    (by norm_num) (by decide)).1
  rcases h with ⟨t, ht⟩
  rw [ht]
  simp

/-! ### Claim C2 -/

unseal Rat.mul Rat.inv Rat.add Rat.sub in
/-- C2 counterexample: an accepted request (both fields arrays) whose word
has a non-numeric truthy `endMs` (e.g. the JSON object `{}`).
`Math.max(0, {} || 0)` is NaN, the duration is NaN, the frame loop condition
`0 <= NaN` is false, and the handler responds with a timeline containing
zero frames. -/
theorem C2_counterexample :
    live2dHandler oZero (.arr [JWord.obj ⟨JVal.num 0, JVal.other true none, some "x"⟩])
        (.arr []) (.str "") 60 (.output none)
      = HResult.timeline (.fixed_fps (some ⟨JVal.num 17, some []⟩))
    ∧ timelineCount (.fixed_fps (some ⟨JVal.num 17, some []⟩)) = 0 := by
  exact ⟨by decide, by decide⟩

/-- C2 (corrected): whenever the handler responds with a timeline — for any
raw `parameterCatalog` value whatsoever — that timeline has at least one
keyframe or frame, provided every words element has a numeric-or-falsy
`endMs` and every visemes element a numeric-or-falsy `startMs` (so the
fallback's duration is not NaN); this covers collaborator error, invalid
JSON, shape mismatch, shape-valid-but-empty candidates and the
clamp-TypeError catch route. -/
theorem C2_theorem (o : SinOracle) (ws : List JWord) (vs : List JViseme) (cat : JCatalog)
    (fps : ℚ) (llm : LLMResult) (t : JTimeline)
    (hwn : ∀ w ∈ ws, wordNumOk w) (hvn : ∀ v ∈ vs, visNumOk v)
    (h : live2dHandler o (.arr ws) (.arr vs) cat fps llm = .timeline t) :
    1 ≤ timelineCount t := by
  simp only [live2dHandler] at h
  rcases hp : parseCatalogJS cat with _ | defs <;> rw [hp] at h
  · simp only [] at h
    cases h
  simp only [] at h
  by_cases hdefs : defs.isEmpty
  · rw [if_pos hdefs] at h
    split at h
    · cases h
    · cases h
    · next dt frames heq =>
        injection h with ht
        subst ht
        have hlen := simpleFallback_frames_len o ws vs [] fps dt frames hwn hvn heq
        simpa [timelineCount] using hlen
  · rw [if_neg hdefs] at h
    cases llm with
    | throws =>
        simp only [] at h
        exact fallbackClamped_count o ws vs _ fps t hwn hvn h
    | output oj =>
        simp only [] at h
        cases oj with
        | none =>
            simp only [] at h
            exact fallbackClamped_count o ws vs _ fps t hwn hvn h
        | some cand =>
            cases cand with
            | keyedWithNullish =>
                simp only [] at h
                exact fallbackClamped_count o ws vs _ fps t hwn hvn h
            | tl cand =>
                simp only [] at h
                by_cases hsh : (isFixedShape cand || isKeyedShape cand) = true
                · rw [if_pos hsh] at h
                  by_cases hemp :
                      emptyAfterClamp (clampCore cand (List.take 280 defs)) = true
                  · rw [if_pos hemp] at h
                    exact fallbackClamped_count o ws vs _ fps t hwn hvn h
                  · rw [if_neg hemp] at h
                    injection h with ht
                    subst ht
                    exact count_pos_of_not_empty cand _ hsh (Bool.not_eq_true _ ▸ hemp)
                · rw [if_neg hsh] at h
                  exact fallbackClamped_count o ws vs _ fps t hwn hvn h

unseal Rat.mul Rat.inv Rat.add Rat.sub in
/-- C2 witness: the corrected statement on a concrete request whose response
is the single-frame fallback timeline. -/
theorem C2_witness :
    1 ≤ timelineCount (.fixed_fps (some ⟨JVal.num 17, some [[]]⟩)) :=
  C2_theorem oZero [] [] (.str "") 60 (.output none)
    (.fixed_fps (some ⟨JVal.num 17, some [[]]⟩))
    (by simp) (by simp) (by decide)

/-! ### Claim C7 -/

/-- The 281-definition catalog used to exhibit the `catch`-path behaviour:
280 copies of a filler parameter followed by `ParamBreath`. -/
def catalogC7 : String :=
  String.intercalate "\n"
    (List.replicate 280 "- Other — [0, 1]" ++ ["- ParamBreath — [0, 1]"])

set_option maxRecDepth 100000 in
set_option maxHeartbeats 1000000 in
unseal Rat.mul Rat.inv Rat.add Rat.sub in
/-- C7 counterexample, two routes into the `catch` (source lines 375–379),
which runs the fallback and `clampTimeline` against the FULL `defs`, not
`trimmed`.  With 281 parsed definitions (the 281st being `ParamBreath`):
(1) the collaborator throws; (2) the collaborator RETURNS the shape-valid
candidate `{"mode":"keyframes","keyframes":[null]}`, on which
`clampTimeline` throws a TypeError at `kf.timeMs` inside the `try`.  On
both routes the response carries `ParamBreath`, a definition invisible to
`defs.slice(0, 280)` — `byId` on the first 280 definitions does not know
it — refuting "every call to clampTimeline made while handling the request
uses only the first 280 parsed definitions", even for a returning
collaborator. -/
theorem C7_counterexample :
    live2dHandler oZero (.arr []) (.arr []) (.str catalogC7) 60 LLMResult.throws
      = HResult.timeline
          (.fixed_fps (some ⟨JVal.num 17, some [[("ParamBreath", JVal.num (1/2))]]⟩))
    ∧ live2dHandler oZero (.arr []) (.arr []) (.str catalogC7) 60
          (.output (some JCand.keyedWithNullish))
        = HResult.timeline
            (.fixed_fps (some ⟨JVal.num 17, some [[("ParamBreath", JVal.num (1/2))]]⟩))
    ∧ byId ((parseCatalog catalogC7).take 280) "ParamBreath" = none := by
  exact ⟨by decide, by decide, by decide⟩

/-- C7 (corrected): on every path that stays outside the `catch` block —
the collaborator call returns AND, if the candidate is a shape-valid
keyframes timeline, its keyframes array has no nullish element (otherwise
`clampTimeline` throws at `kf.timeMs` and the `catch` takes over) — each
parameter id in the response resolves in the first 280 parsed definitions:
those paths clamp against `trimmed` (and the empty-catalog path emits no
parameters at all).  On every path, ids resolve in the full parsed
definition list; the `catch` path alone (collaborator throw, or the
clamp TypeError) uses definitions beyond the first 280 (see the
counterexample).  The glossary is built from `trimmed` only (source
line 306). -/
theorem C7_theorem (o : SinOracle) (ws : List JWord) (vs : List JViseme) (cat : JCatalog)
    (fps : ℚ) (llm : LLMResult) (t : JTimeline) (defs : List ParamDef)
    (hp : parseCatalogJS cat = some defs)
    (h : live2dHandler o (.arr ws) (.arr vs) cat fps llm = .timeline t) :
    ((llm ≠ LLMResult.throws ∧ llm ≠ .output (some JCand.keyedWithNullish)) →
      ∀ k ∈ timelineParamIds t, (byId (defs.take 280) k).isSome = true)
    ∧ ∀ k ∈ timelineParamIds t, (byId defs k).isSome = true := by
  simp only [live2dHandler, hp] at h
  by_cases hdefs : defs.isEmpty
  · rw [if_pos hdefs] at h
    have hids : ∀ k ∈ timelineParamIds t, False := by
      intro k hk
      split at h
      · cases h
      · cases h
      · next dt frames heq =>
          injection h with ht
          subst ht
          simp only [timelineParamIds, Option.getD_some] at hk
          rw [List.mem_flatten] at hk
          rcases hk with ⟨ids, hids, hkin⟩
          rcases List.mem_map.mp hids with ⟨fr, hfr, rfl⟩
          rcases simpleFallback_frames_are o ws vs [] fps dt frames heq fr hfr with ⟨tq, rfl⟩
          rw [frameAt_defs_nil] at hkin
          cases hkin
    exact ⟨fun _ k hk => absurd (hids k hk) not_false,
      fun k hk => absurd (hids k hk) not_false⟩
  · rw [if_neg hdefs] at h
    cases llm with
    | throws =>
        refine ⟨fun hne => absurd rfl hne.1, ?_⟩
        simp only [] at h
        unfold fallbackClamped at h
        split at h
        · cases h
        · cases h
        · injection h with ht
          subst ht
          exact clampCore_ids _ _
    | output oj =>
        simp only [] at h
        cases oj with
        | none =>
            simp only [] at h
            have htr : ∀ k ∈ timelineParamIds t,
                (byId (defs.take 280) k).isSome = true := by
              unfold fallbackClamped at h
              split at h
              · cases h
              · cases h
              · injection h with ht
                subst ht
                exact clampCore_ids _ _
            exact ⟨fun _ => htr, fun k hk => byId_take_isSome _ 280 k (htr k hk)⟩
        | some cand =>
            cases cand with
            | keyedWithNullish =>
                refine ⟨fun hne => absurd rfl hne.2, ?_⟩
                simp only [] at h
                unfold fallbackClamped at h
                split at h
                · cases h
                · cases h
                · injection h with ht
                  subst ht
                  exact clampCore_ids _ _
            | tl cand =>
                simp only [] at h
                have htr : ∀ k ∈ timelineParamIds t,
                    (byId (defs.take 280) k).isSome = true := by
                  by_cases hsh : (isFixedShape cand || isKeyedShape cand) = true
                  · rw [if_pos hsh] at h
                    by_cases hemp :
                        emptyAfterClamp (clampCore cand (List.take 280 defs)) = true
                    · rw [if_pos hemp] at h
                      unfold fallbackClamped at h
                      split at h
                      · cases h
                      · cases h
                      · injection h with ht
                        subst ht
                        exact clampCore_ids _ _
                    · rw [if_neg hemp] at h
                      injection h with ht
                      subst ht
                      exact clampCore_ids _ _
                  · rw [if_neg hsh] at h
                    unfold fallbackClamped at h
                    split at h
                    · cases h
                    · cases h
                    · injection h with ht
                      subst ht
                      exact clampCore_ids _ _
                exact ⟨fun _ => htr, fun k hk => byId_take_isSome _ 280 k (htr k hk)⟩

unseal Rat.mul Rat.inv Rat.add Rat.sub in
/-- C7 witness: the corrected statement on a small accepted request with a
collaborator that returns and triggers no clamp TypeError — the single
parameter id in the response resolves within the first 280 parsed
definitions. -/
theorem C7_witness :
    (byId ((parseCatalog "- ParamBreath — [0, 1]").take 280) "ParamBreath").isSome = true := by
  refine (C7_theorem oZero [] [] (.str "- ParamBreath — [0, 1]") 60 (.output none)
    (.fixed_fps (some ⟨JVal.num 17, some [[("ParamBreath", JVal.num (1/2))]]⟩))
    (parseCatalog "- ParamBreath — [0, 1]") rfl ?_).1
    ?_ "ParamBreath" ?_
  · decide
  · exact ⟨by simp, by simp⟩
  · decide

end Live2d


